import Mathlib

/-!
Verification of the transaction-ledger program (`src/main.rs`).

The embedding is shallow and executable:
* currency amounts (`f32` in the source) are modelled as exact rationals `ℚ`;
  every concrete amount appearing below is exactly representable in `f32`
  and the operations performed on the concrete values are exact there;
* the source's `HashMap`s (`oplog : HashMap<u32, OperationState>` and
  `accounts : HashMap<u16, Account>`) are modelled as association lists with
  at most one binding per key, with `insert` overwriting in place;
* `anyhow` error strings are modelled as the inductive `LedgerError`, one
  constructor per distinct error message produced by the program;
* Rust's in-place mutation is modelled by explicit state passing:
  `process_transaction` returns the updated account (the source mutates
  `&mut Account` only after every rejection check has passed), and
  `apply_transaction` returns the rejection-or-unit outcome together with
  the resulting ledger, since the source can mutate the ledger (inserting a
  fresh account) even on a rejected row.
-/

namespace Ledger

/-- Per-transaction operation state (`enum OperationState` in the source). -/
inductive OperationState where
  | RegularDeposit (amount : ℚ)
  | DisputedDeposit (amount : ℚ)
  | FinalDeposit
  | AfterWithdrawal
deriving DecidableEq, Repr

/-- Account state (`enum AccountState`): open for normal operation or locked
after a chargeback. -/
inductive AccountState where
  | Open (available held : ℚ)
  | Locked (available held : ℚ)
deriving DecidableEq, Repr

/-- The typed incoming operation (`enum AccountOperation`). -/
inductive AccountOperation where
  | Deposit (amount : ℚ)
  | Withdrawal (amount : ℚ)
  | Dispute
  | Resolve
  | Chargeback
deriving DecidableEq, Repr

/-- The errors the program produces, one constructor per distinct `anyhow!`
message (plus the spec's names for them). -/
inductive LedgerError where
  | AccountLocked
  | InsufficientFunds
  | DuplicateTransactionId
  | TransactionNotFound
  | IllegalStateTransition
  | UnknownTransactionType
deriving DecidableEq, Repr

/-- Association-list lookup, modelling `HashMap::get` / `contains_key` /
indexing. -/
def alistLookup {α : Type} : List (Nat × α) → Nat → Option α
  | [], _ => none
  | (k, v) :: rest, key => if key = k then some v else alistLookup rest key

/-- Association-list insert, modelling `HashMap::insert`: overwrites the
binding when the key is present, otherwise adds a new one. -/
def alistInsert {α : Type} : List (Nat × α) → Nat → α → List (Nat × α)
  | [], key, v => [(key, v)]
  | (k, w) :: rest, key, v =>
      if key = k then (k, v) :: rest else (k, w) :: alistInsert rest key v

/-- Association-list in-place modification, modelling
`map.get_mut(&k).map(|val| *val = v)`: overwrites the binding when the key
is present, otherwise leaves the list unchanged. -/
def alistModify {α : Type} : List (Nat × α) → Nat → α → List (Nat × α)
  | [], _, _ => []
  | (k, w) :: rest, key, v =>
      if key = k then (k, v) :: rest else (k, w) :: alistModify rest key v

/-- An account: its state plus its transaction-id-keyed oplog
(`struct Account`). -/
structure Account where
  state : AccountState
  oplog : List (Nat × OperationState)
deriving DecidableEq, Repr

/-- The ledger: client-id-keyed map of accounts (`struct Ledger`). -/
structure LedgerState where
  accounts : List (Nat × Account)
deriving DecidableEq, Repr

/-- The result of applying an operation on an account
(`enum AccountOperationResult`). -/
inductive AccountOperationResult where
  | AppendOperation (state : AccountState) (op : OperationState)
  | ModifyOperation (state : AccountState) (op : OperationState)
deriving DecidableEq, Repr

/-- One deserialized csv row (`struct TransactionEntry`). -/
structure TransactionEntry where
  t : String
  client_id : Nat
  uid : Nat
  amount : ℚ
deriving DecidableEq, Repr

/-- The main state machine (`fn process_operation`): matches on
`(account state, operation to modify, incoming operation)` exactly as the
source's `match` does, producing an `AccountOperationResult` or a rejection.
It reads only the account's state. -/
def process_operation (op : AccountOperation) (op_to_modify : Option OperationState)
    (a : Account) : Except LedgerError AccountOperationResult :=
  match a.state, op_to_modify, op with
  | .Locked _ _, _, _ => .error .AccountLocked
  | .Open available held, none, .Deposit amount =>
      .ok (.AppendOperation (.Open (available + amount) held) (.RegularDeposit amount))
  | .Open available held, none, .Withdrawal amount =>
      if amount > available then
        .error .InsufficientFunds
      else
        .ok (.AppendOperation (.Open (available - amount) held) .AfterWithdrawal)
  | .Open available held, some (.RegularDeposit amount), .Dispute =>
      .ok (.ModifyOperation (.Open (available - amount) (held + amount))
        (.DisputedDeposit amount))
  | .Open available held, some (.DisputedDeposit amount), .Resolve =>
      .ok (.ModifyOperation (.Open (available + amount) (held - amount))
        (.RegularDeposit amount))
  | .Open available held, some (.DisputedDeposit amount), .Chargeback =>
      .ok (.ModifyOperation (.Locked available (held - amount)) .FinalDeposit)
  | _, _, _ => .error .IllegalStateTransition

/-- Commits a result into the account (`fn apply_result_to_account`):
append inserts the record and overwrites the state; modify overwrites the
record in place (a silent no-op when the key is absent) and overwrites the
state. Mirrors the source's `Result<()>`: both branches report success. -/
def apply_result_to_account (result : AccountOperationResult) (tx_id : Nat)
    (a : Account) : Except LedgerError Account :=
  match result with
  | .AppendOperation state op =>
      .ok { state := state, oplog := alistInsert a.oplog tx_id op }
  | .ModifyOperation state op =>
      .ok { state := state, oplog := alistModify a.oplog tx_id op }

/-- `fn is_transaction_in_log`: whether the row's transaction id is already
in the account's oplog. -/
def is_transaction_in_log (tx : TransactionEntry) (a : Account) : Bool :=
  (alistLookup a.oplog tx.uid).isSome

/-- The transaction dispatcher (`fn process_transaction`): classifies the
row by its type string, enforces id-presence/absence, fetches the referenced
record for dispute/resolve/chargeback, runs `process_operation` and commits
via `apply_result_to_account`. The source's `contains_key` guard followed by
indexing (`a.oplog[&tx.uid]`) is fused into a single lookup-and-match. -/
def process_transaction (tx : TransactionEntry) (a : Account) :
    Except LedgerError Account :=
  if tx.t = "deposit" then
    if is_transaction_in_log tx a then .error .DuplicateTransactionId
    else
      match process_operation (.Deposit tx.amount) none a with
      | .error e => .error e
      | .ok result => apply_result_to_account result tx.uid a
  else if tx.t = "withdrawal" then
    if is_transaction_in_log tx a then .error .DuplicateTransactionId
    else
      match process_operation (.Withdrawal tx.amount) none a with
      | .error e => .error e
      | .ok result => apply_result_to_account result tx.uid a
  else if tx.t = "dispute" then
    match alistLookup a.oplog tx.uid with
    | none => .error .TransactionNotFound
    | some opst =>
      match process_operation .Dispute (some opst) a with
      | .error e => .error e
      | .ok result => apply_result_to_account result tx.uid a
  else if tx.t = "resolve" then
    match alistLookup a.oplog tx.uid with
    | none => .error .TransactionNotFound
    | some opst =>
      match process_operation .Resolve (some opst) a with
      | .error e => .error e
      | .ok result => apply_result_to_account result tx.uid a
  else if tx.t = "chargeback" then
    match alistLookup a.oplog tx.uid with
    | none => .error .TransactionNotFound
    | some opst =>
      match process_operation .Chargeback (some opst) a with
      | .error e => .error e
      | .ok result => apply_result_to_account result tx.uid a
  else .error .UnknownTransactionType

/-- A freshly created account: `Open{0,0}` with an empty oplog. -/
def emptyAccount : Account := { state := .Open 0 0, oplog := [] }

/-- `fn apply_transaction`: resolves the account by client id, creating an
empty one on first reference, then dispatches. The source inserts the fresh
account into the ledger before dispatching and does not remove it when the
row is rejected, so the function returns both the `Result<()>` outcome and
the (possibly mutated) ledger. -/
def apply_transaction (tx : TransactionEntry) (l : LedgerState) :
    Except LedgerError Unit × LedgerState :=
  match alistLookup l.accounts tx.client_id with
  | some account =>
      match process_transaction tx account with
      | .error e => (.error e, l)
      | .ok a2 => (.ok (), ⟨alistInsert l.accounts tx.client_id a2⟩)
  | none =>
      let l1 : LedgerState := ⟨alistInsert l.accounts tx.client_id emptyAccount⟩
      match process_transaction tx emptyAccount with
      | .error e => (.error e, l1)
      | .ok a2 => (.ok (), ⟨alistInsert l1.accounts tx.client_id a2⟩)

/-- The empty ledger `main` starts from. -/
def emptyLedger : LedgerState := ⟨[]⟩

/-- The driver loop of `main` restricted to already-deserialized rows:
each row is applied in order, a rejected row is logged and discarded and
processing continues with the ledger the rejected `apply_transaction` call
left behind. -/
def run_ledger (entries : List TransactionEntry) (l : LedgerState) : LedgerState :=
  match entries with
  | [] => l
  | tx :: rest => run_ledger rest (apply_transaction tx l).2

/-- Available funds of a state, as the output printer reads them. -/
def availableOf : AccountState → ℚ
  | .Open available _ => available
  | .Locked available _ => available

/-- Held funds of a state, as the output printer reads them. -/
def heldOf : AccountState → ℚ
  | .Open _ held => held
  | .Locked _ held => held

/-- The `total` column of the output: `available + held`. -/
def totalOf (s : AccountState) : ℚ := availableOf s + heldOf s

/-- The `locked` column of the output. -/
def lockedOf : AccountState → Bool
  | .Open _ _ => false
  | .Locked _ _ => true

/-- The state of the result an operation produced, before commit. -/
def resultState : AccountOperationResult → AccountState
  | .AppendOperation state _ => state
  | .ModifyOperation state _ => state

end Ledger

namespace Ledger

/-! ### Helper lemmas about the association-list maps -/

/-- Lookup after insert: the inserted key maps to the new value, every other
key is untouched. -/
theorem alistLookup_insert {α : Type} (m : List (Nat × α)) (k c : Nat) (v : α) :
    alistLookup (alistInsert m k v) c = if c = k then some v else alistLookup m c := by
  induction m with
  | nil => simp [alistInsert, alistLookup]
  | cons hd tl ih =>
    obtain ⟨k1, v1⟩ := hd
    by_cases hkk : k = k1
    · subst hkk
      simp only [alistInsert, if_pos rfl, alistLookup]
      split_ifs <;> simp_all [alistLookup]
    · simp only [alistInsert, if_neg hkk, alistLookup, ih]
      split_ifs <;> simp_all

/-- Modifying an absent key is a no-op on the map. -/
theorem alistModify_absent {α : Type} (m : List (Nat × α)) (k : Nat) (v : α)
    (h : alistLookup m k = none) : alistModify m k v = m := by
  induction m with
  | nil => rfl
  | cons hd tl ih =>
    obtain ⟨k1, v1⟩ := hd
    simp only [alistLookup] at h
    by_cases hkk : k = k1
    · simp [hkk] at h
    · simp only [alistModify, if_neg hkk]
      simp only [if_neg hkk] at h
      rw [ih h]

/-! ### The claims -/

/-- C1, counterexample to the claim as stated: on the locked account produced
by Deposit(1, 10)/Dispute(1)/Chargeback(1), a subsequent deposit reusing
transaction id 1 is rejected with `DuplicateTransactionId` — the dispatcher's
duplicate-id check fires before the state machine's locked check — so not
every subsequent event is rejected with `AccountLocked`. -/
theorem C1_locked_account_counterexample :
    process_transaction ⟨"deposit", 1, 1, 1⟩ ⟨.Locked 0 0, [(1, .FinalDeposit)]⟩ =
      .error .DuplicateTransactionId ∧
    process_transaction ⟨"deposit", 1, 1, 1⟩ ⟨.Locked 0 0, [(1, .FinalDeposit)]⟩ ≠
      .error .AccountLocked := by
  constructor <;>
    simp +decide [process_transaction, is_transaction_in_log, alistLookup]

/-- C1, amended: Deposit(id=1, 10.0) then Dispute(1) then Chargeback(1) on a
fresh account yields `Locked{available=0, held=0}` with oplog `{1 ↦
FinalDeposit}`, and every subsequent event of any type against this account
is rejected — with `AccountLocked` exactly when the dispatcher's id
precondition for the event's type is satisfied (deposit/withdrawal with a
fresh id, dispute/resolve/chargeback referencing the logged id 1), and
otherwise with `DuplicateTransactionId`, `TransactionNotFound`, or
`UnknownTransactionType`. -/
theorem C1_chargeback_finality_amended :
    (process_transaction ⟨"deposit", 1, 1, 10⟩ emptyAccount).bind (fun a =>
        (process_transaction ⟨"dispute", 1, 1, 0⟩ a).bind
          (process_transaction ⟨"chargeback", 1, 1, 0⟩)) =
      .ok ⟨.Locked 0 0, [(1, .FinalDeposit)]⟩ ∧
    ∀ tx : TransactionEntry,
      process_transaction tx ⟨.Locked 0 0, [(1, .FinalDeposit)]⟩ =
        .error (if tx.t = "deposit" ∨ tx.t = "withdrawal" then
                  (if tx.uid = 1 then .DuplicateTransactionId else .AccountLocked)
                else if tx.t = "dispute" ∨ tx.t = "resolve" ∨ tx.t = "chargeback" then
                  (if tx.uid = 1 then .AccountLocked else .TransactionNotFound)
                else .UnknownTransactionType) := by
  constructor
  · simp +decide [process_transaction, process_operation, apply_result_to_account,
      is_transaction_in_log, alistLookup, alistInsert, alistModify, emptyAccount, Except.bind]
  · intro tx
    obtain ⟨t, cid, uid, amt⟩ := tx
    by_cases hu : uid = 1 <;>
      simp only [process_transaction, process_operation, is_transaction_in_log,
        alistLookup, hu, if_pos, if_neg] <;>
      split_ifs <;> simp_all [process_operation]

/-- C2, counterexample to the claim as stated: a withdrawal row for a client
id the ledger has never seen is rejected with `InsufficientFunds`, yet the
ledger is not left as it was — `apply_transaction` inserts the freshly
created empty account before dispatching and does not remove it on
rejection. -/
theorem C2_rejected_row_counterexample :
    (apply_transaction ⟨"withdrawal", 9, 1, 5⟩ emptyLedger).1 =
      .error .InsufficientFunds ∧
    (apply_transaction ⟨"withdrawal", 9, 1, 5⟩ emptyLedger).2 ≠ emptyLedger := by
  constructor <;>
    simp +decide [apply_transaction, process_transaction, process_operation,
      is_transaction_in_log, alistLookup, alistInsert, emptyLedger, emptyAccount]

/-- C2, amended: on every rejected row the target account's state and oplog
are unchanged and no existing ledger entry is created or modified — if the
client id was already present the ledger is exactly as before, and every
other client's entry always reads back unchanged — but when the rejected
row's client id was not yet present, a fresh empty `Open{0,0}` account entry
has been created for it and remains in the ledger. -/
theorem C2_rejection_ledger_effect (tx : TransactionEntry) (l : LedgerState)
    (e : LedgerError) (h : (apply_transaction tx l).1 = .error e) :
    ((∃ a, alistLookup l.accounts tx.client_id = some a) → (apply_transaction tx l).2 = l) ∧
    (alistLookup l.accounts tx.client_id = none →
      (apply_transaction tx l).2 = ⟨alistInsert l.accounts tx.client_id emptyAccount⟩) ∧
    (∀ c, c ≠ tx.client_id →
      alistLookup ((apply_transaction tx l).2).accounts c = alistLookup l.accounts c) := by
  rcases hacc : alistLookup l.accounts tx.client_id with _ | a
  · rcases hpt : process_transaction tx emptyAccount with e1 | a2
    · simp [apply_transaction, hacc, hpt]
      intro c hc
      rw [alistLookup_insert, if_neg hc]
    · simp [apply_transaction, hacc, hpt] at h
  · rcases hpt : process_transaction tx a with e1 | a2
    · simp [apply_transaction, hacc, hpt]
    · simp [apply_transaction, hacc, hpt] at h

/-- C2 witness: the rejected withdrawal for unseen client 9 leaves the
ledger equal to the empty ledger with the fresh empty account inserted. -/
theorem C2_rejection_ledger_effect_witness :
    (apply_transaction ⟨"withdrawal", 9, 1, 5⟩ emptyLedger).2 =
      ⟨alistInsert emptyLedger.accounts 9 emptyAccount⟩ :=
  (C2_rejection_ledger_effect ⟨"withdrawal", 9, 1, 5⟩ emptyLedger .InsufficientFunds
      (by simp +decide [apply_transaction, process_transaction, process_operation,
        is_transaction_in_log, alistLookup, emptyLedger, emptyAccount])).2.1 rfl

/-- C3: on an open account, a withdrawal carrying a fresh transaction id is
rejected with `InsufficientFunds` if and only if its amount strictly exceeds
the available funds; when `amt ≤ available` it succeeds, the new state is
`Open{available - amt, held}` and an `AfterWithdrawal` record is inserted
under the transaction id. -/
theorem C3_withdrawal_guard (av held amt : ℚ) (log : List (Nat × OperationState))
    (cid uid : Nat) (hfresh : alistLookup log uid = none) :
    (process_transaction ⟨"withdrawal", cid, uid, amt⟩ ⟨.Open av held, log⟩
        = .error .InsufficientFunds ↔ amt > av) ∧
    (amt ≤ av →
      process_transaction ⟨"withdrawal", cid, uid, amt⟩ ⟨.Open av held, log⟩
        = .ok ⟨.Open (av - amt) held, alistInsert log uid .AfterWithdrawal⟩) := by
  constructor
  · simp +decide [process_transaction, process_operation, apply_result_to_account,
      is_transaction_in_log, hfresh]
    split_ifs with hgt <;> simp [hgt]
  · intro hle
    simp +decide [process_transaction, process_operation, apply_result_to_account,
      is_transaction_in_log, hfresh, not_lt.mpr hle]

/-- C3 witness: withdrawing exactly the available amount (5 from 5)
succeeds. -/
theorem C3_withdrawal_guard_witness :
    process_transaction ⟨"withdrawal", 1, 1, (5 : ℚ)⟩ ⟨.Open 5 0, []⟩ =
      .ok ⟨.Open (5 - 5) 0, alistInsert [] 1 .AfterWithdrawal⟩ :=
  (C3_withdrawal_guard 5 0 5 [] 1 1 rfl).2 (le_refl 5)

/-- C4: Deposit(id=1, 10.0) then Dispute(1) then Resolve(1) on a fresh
account returns the account to the exact state it had after the deposit
alone, and that state carries the record `RegularDeposit{10}` under id 1 —
Resolve undoes a Dispute of the same record. -/
theorem C4_dispute_resolve_roundtrip :
    (process_transaction ⟨"deposit", 1, 1, 10⟩ emptyAccount).bind (fun a =>
        (process_transaction ⟨"dispute", 1, 1, 0⟩ a).bind
          (process_transaction ⟨"resolve", 1, 1, 0⟩)) =
      process_transaction ⟨"deposit", 1, 1, 10⟩ emptyAccount ∧
    process_transaction ⟨"deposit", 1, 1, 10⟩ emptyAccount =
      .ok ⟨.Open 10 0, [(1, .RegularDeposit 10)]⟩ := by
  constructor <;>
    simp +decide [process_transaction, process_operation, apply_result_to_account,
      is_transaction_in_log, alistLookup, alistInsert, alistModify, emptyAccount, Except.bind]

/-- C5: on an open account, a dispute whose referenced record is not in the
`RegularDeposit` state (it is `DisputedDeposit`, `FinalDeposit`, or
`AfterWithdrawal`) is rejected with `IllegalStateTransition`; in particular
a completed withdrawal can never be disputed and an already-disputed or
charged-back deposit cannot be disputed again. -/
theorem C5_dispute_wrong_state (av held amtE : ℚ) (log : List (Nat × OperationState))
    (cid uid : Nat) (r : OperationState) (hr : alistLookup log uid = some r)
    (hnr : ∀ amt, r ≠ .RegularDeposit amt) :
    process_transaction ⟨"dispute", cid, uid, amtE⟩ ⟨.Open av held, log⟩
      = .error .IllegalStateTransition := by
  cases r with
  | RegularDeposit amt => exact absurd rfl (hnr amt)
  | DisputedDeposit amt => simp +decide [process_transaction, process_operation, hr]
  | FinalDeposit => simp +decide [process_transaction, process_operation, hr]
  | AfterWithdrawal => simp +decide [process_transaction, process_operation, hr]

/-- C5 witness: disputing a charged-back (`FinalDeposit`) record is rejected
with `IllegalStateTransition`. -/
theorem C5_dispute_wrong_state_witness :
    process_transaction ⟨"dispute", 1, 1, 0⟩ ⟨.Open 0 0, [(1, .FinalDeposit)]⟩
      = .error .IllegalStateTransition :=
  C5_dispute_wrong_state 0 0 0 [(1, .FinalDeposit)] 1 1 .FinalDeposit rfl
    (fun amt h => by simp at h)

/-- C6: a deposit or withdrawal whose transaction id already exists in the
target account's oplog is rejected with `DuplicateTransactionId`, and
`apply_transaction` leaves the ledger exactly as it was, so balances reflect
only the earlier transaction. -/
theorem C6_duplicate_transaction_id (tx : TransactionEntry) (l : LedgerState)
    (a : Account) (ht : tx.t = "deposit" ∨ tx.t = "withdrawal")
    (hl : alistLookup l.accounts tx.client_id = some a)
    (hin : is_transaction_in_log tx a = true) :
    process_transaction tx a = .error .DuplicateTransactionId ∧
    apply_transaction tx l = (.error .DuplicateTransactionId, l) := by
  have hpt : process_transaction tx a = .error .DuplicateTransactionId := by
    rcases ht with ht | ht <;> simp +decide [process_transaction, ht, hin]
  exact ⟨hpt, by simp [apply_transaction, hl, hpt]⟩

/-- C6 witness: of two deposit rows with tx id 1 for client 1, the second is
rejected with `DuplicateTransactionId` and the ledger keeps only the first
deposit's effect. -/
theorem C6_duplicate_transaction_id_witness :
    process_transaction ⟨"deposit", 1, 1, (5 : ℚ)⟩ ⟨.Open 5 0, [(1, .RegularDeposit 5)]⟩ =
      .error .DuplicateTransactionId ∧
    apply_transaction ⟨"deposit", 1, 1, (5 : ℚ)⟩
        ⟨[(1, ⟨.Open 5 0, [(1, .RegularDeposit 5)]⟩)]⟩ =
      (.error .DuplicateTransactionId, ⟨[(1, ⟨.Open 5 0, [(1, .RegularDeposit 5)]⟩)]⟩) :=
  C6_duplicate_transaction_id ⟨"deposit", 1, 1, 5⟩
    ⟨[(1, ⟨.Open 5 0, [(1, .RegularDeposit 5)]⟩)]⟩
    ⟨.Open 5 0, [(1, .RegularDeposit 5)]⟩ (Or.inl rfl) rfl rfl

/-- C7: the four rows deposit,1,1,5.0; deposit,2,2,3.0; withdrawal,1,3,2.0;
dispute,1,1 (dispute rows carry no amount; the dispatcher never reads the
amount of a dispute, so it is rendered 0 here) leave client 1 with
available −2, held 5, total 3, not locked, and client 2 with available 3,
held 0, total 3, not locked. -/
theorem C7_end_to_end_scenario :
    ((alistLookup (run_ledger [⟨"deposit", 1, 1, 5⟩, ⟨"deposit", 2, 2, 3⟩,
          ⟨"withdrawal", 1, 3, 2⟩, ⟨"dispute", 1, 1, 0⟩] emptyLedger).accounts 1).map
        (fun a => (availableOf a.state, heldOf a.state, totalOf a.state, lockedOf a.state)) =
      some (-2, 5, 3, false)) ∧
    ((alistLookup (run_ledger [⟨"deposit", 1, 1, 5⟩, ⟨"deposit", 2, 2, 3⟩,
          ⟨"withdrawal", 1, 3, 2⟩, ⟨"dispute", 1, 1, 0⟩] emptyLedger).accounts 2).map
        (fun a => (availableOf a.state, heldOf a.state, totalOf a.state, lockedOf a.state)) =
      some (3, 0, 3, false)) := by
  constructor
  all_goals
    simp +decide [run_ledger, apply_transaction, process_transaction, process_operation,
      apply_result_to_account, is_transaction_in_log, alistLookup, alistInsert, alistModify,
      emptyLedger, emptyAccount, availableOf, heldOf, totalOf, lockedOf]
  all_goals norm_num

/-- C8: committing a `ModifyOperation` result for a transaction id absent
from the account's oplog still overwrites the account's state, silently
drops the record update (the oplog is unchanged), and reports success. -/
theorem C8_modify_missing_key (st : AccountState) (op : OperationState)
    (tx_id : Nat) (a : Account) (h : alistLookup a.oplog tx_id = none) :
    apply_result_to_account (.ModifyOperation st op) tx_id a = .ok ⟨st, a.oplog⟩ := by
  simp [apply_result_to_account, alistModify_absent _ _ _ h]

/-- C8 witness: modifying key 7 in an account with an empty oplog updates
the state, keeps the oplog empty, and succeeds. -/
theorem C8_modify_missing_key_witness :
    apply_result_to_account (.ModifyOperation (.Open 1 0) (.DisputedDeposit 1)) 7
        ⟨.Open 0 0, []⟩ = .ok ⟨.Open 1 0, []⟩ :=
  C8_modify_missing_key (.Open 1 0) (.DisputedDeposit 1) 7 ⟨.Open 0 0, []⟩ rfl

/-- C9: amounts are never validated for sign — on an open account a deposit
with any amount (in particular zero or negative) is accepted, appending a
`RegularDeposit` record and adding the amount to available, and a withdrawal
with a negative amount is accepted whenever `amt ≤ available`, which
strictly increases available. -/
theorem C9_no_sign_validation (av held amt : ℚ) (log : List (Nat × OperationState))
    (cid uid : Nat) (hfresh : alistLookup log uid = none) :
    (process_transaction ⟨"deposit", cid, uid, amt⟩ ⟨.Open av held, log⟩ =
        .ok ⟨.Open (av + amt) held, alistInsert log uid (.RegularDeposit amt)⟩) ∧
    (amt < 0 → amt ≤ av →
      process_transaction ⟨"withdrawal", cid, uid, amt⟩ ⟨.Open av held, log⟩ =
          .ok ⟨.Open (av - amt) held, alistInsert log uid .AfterWithdrawal⟩ ∧
        av < av - amt) := by
  refine ⟨?_, fun hneg hle => ⟨?_, by linarith⟩⟩
  · simp +decide [process_transaction, process_operation, apply_result_to_account,
      is_transaction_in_log, hfresh]
  · simp +decide [process_transaction, process_operation, apply_result_to_account,
      is_transaction_in_log, hfresh, not_lt.mpr hle]

/-- C9 witness: on an empty open account, a deposit of −1 is accepted, and a
withdrawal of −1 is accepted and raises available from 0 to 1. -/
theorem C9_no_sign_validation_witness :
    (process_transaction ⟨"deposit", 1, 1, (-1 : ℚ)⟩ ⟨.Open 0 0, []⟩ =
        .ok ⟨.Open (0 + -1) 0, alistInsert [] 1 (.RegularDeposit (-1))⟩) ∧
    (process_transaction ⟨"withdrawal", 1, 2, (-1 : ℚ)⟩ ⟨.Open 0 0, []⟩ =
        .ok ⟨.Open (0 - -1) 0, alistInsert [] 2 .AfterWithdrawal⟩) ∧
    (0 : ℚ) < 0 - -1 :=
  ⟨(C9_no_sign_validation 0 0 (-1) [] 1 1 rfl).1,
   ((C9_no_sign_validation 0 0 (-1) [] 1 2 rfl).2 (by norm_num) (by norm_num)).1,
   ((C9_no_sign_validation 0 0 (-1) [] 1 2 rfl).2 (by norm_num) (by norm_num)).2⟩

/-- C10: every successful Dispute and every successful Resolve preserves
`available + held` exactly, and any successful operation that changes
`available + held` is a Deposit, a Withdrawal, or a Chargeback. -/
theorem C10_dispute_resolve_preserve_total (op : AccountOperation)
    (ref : Option OperationState) (a : Account) (r : AccountOperationResult)
    (h : process_operation op ref a = .ok r) :
    ((op = .Dispute ∨ op = .Resolve) → totalOf (resultState r) = totalOf a.state) ∧
    (totalOf (resultState r) ≠ totalOf a.state →
      (∃ amt, op = .Deposit amt) ∨ (∃ amt, op = .Withdrawal amt) ∨ op = .Chargeback) := by
  obtain ⟨st, log⟩ := a
  simp only [process_operation] at h
  split at h
  · exact absurd h (by simp)
  · simp_all
  · split at h
    · exact absurd h (by simp)
    · simp_all
  · injection h with h2
    subst h2
    simp [resultState, totalOf, availableOf, heldOf]
  · injection h with h2
    subst h2
    simp [resultState, totalOf, availableOf, heldOf]
  · simp_all
  · exact absurd h (by simp)

/-- C10 witness: disputing a `RegularDeposit{5}` on `Open{5,0}` moves 5 from
available to held and keeps the total at 5. -/
theorem C10_dispute_resolve_preserve_total_witness :
    totalOf (resultState (.ModifyOperation (.Open (5 - 5) (0 + 5)) (.DisputedDeposit 5))) =
      totalOf (AccountState.Open 5 0) :=
  (C10_dispute_resolve_preserve_total .Dispute (some (.RegularDeposit 5))
      ⟨.Open 5 0, [(1, .RegularDeposit 5)]⟩
      (.ModifyOperation (.Open (5 - 5) (0 + 5)) (.DisputedDeposit 5)) rfl).1 (Or.inl rfl)

end Ledger
